import Mathlib

/-!
Verification development for the social-sniper-agent query-understanding
pipeline.  The TypeScript resolvers (tags, radius, limit, when,
coordinates) and the event retrieval/ranking stage are shallowly embedded
as executable Lean functions.

Conventions used throughout:
* Confidence values in [0,1] are represented as natural numbers in
  hundredths (0.95 becomes 95).
* Geographic coordinates are represented as integers scaled by 10^4
  (12.9716 becomes 129716); they are opaque data here, never computed on.
* Dates are represented as integer day counts since 1970-01-01 (a
  Thursday); a JavaScript Date at local midnight corresponds to its day
  count, and Date.getDay() corresponds to (d + 4) mod 7.
* The JS regexes used by the resolvers fall into a small fragment
  (case-insensitive word-bounded literals separated by \s, optional
  groups, digit captures); that fragment is implemented directly below.
-/

namespace SnSniper

/-- ASCII word character, as in the JS regex class \w = [A-Za-z0-9_]. -/
def isWordChar (c : Char) : Bool :=
  let n := c.toNat
  (48 ≤ n && n ≤ 57) || (65 ≤ n && n ≤ 90) || (97 ≤ n && n ≤ 122) || n = 95

/-- Whitespace character (JS \s restricted to ASCII: space and 0x09-0x0D). -/
def isWs (c : Char) : Bool :=
  let n := c.toNat
  n = 32 || (9 ≤ n && n ≤ 13)

/-- ASCII decimal digit. -/
def isDigitCh (c : Char) : Bool :=
  let n := c.toNat
  48 ≤ n && n ≤ 57

/-- Code point of the lower-cased character (ASCII case folding, which is
what the JS /i flag performs on these ASCII-only patterns). -/
def lcn (c : Char) : Nat :=
  let n := c.toNat
  if 65 ≤ n && n ≤ 90 then n + 32 else n

/-- Lower-case a character list (ASCII), modelling String.toLowerCase. -/
def lowerChars (s : List Char) : List Char :=
  s.map (fun c => Char.ofNat (lcn c))

/-- Lower-case a string (ASCII), modelling String.toLowerCase. -/
def lowerStr (s : String) : String :=
  ⟨lowerChars s.data⟩

/-- Case-insensitive literal match at the head of the input: the pattern
is given in lower case, each input character is folded.  Returns the rest
of the input after the literal. -/
def litAt : List Char → List Char → Option (List Char)
  | [], s => some s
  | _ :: _, [] => none
  | p :: ps, c :: cs => if p.toNat = lcn c then litAt ps cs else none

/-- Match a sequence of literal words separated by \s* (any run of
whitespace, possibly empty) starting at the head of the input.  Returns
the rest of the input after the last word.  Dropping the maximal
whitespace run is equivalent to the regex \s* here because every literal
starts with a non-whitespace character. -/
def seqAt : List (List Char) → List Char → Option (List Char)
  | [], s => some s
  | [w], s => litAt w s
  | w :: ws, s =>
    match litAt w s with
    | none => none
    | some r => seqAt ws (r.dropWhile isWs)

/-- A word boundary \b holds after a match when the input is exhausted or
the next character is not a word character (all literals end in a word
character). -/
def bAfter : List Char → Bool
  | [] => true
  | c :: _ => !isWordChar c

/-- A word boundary \b holds before a match when there is no previous
character or it is not a word character (all literals start with a word
character). -/
def bOk : Option Char → Bool
  | none => true
  | some c => !isWordChar c

/-- Does one of the alternative word sequences match at the head of the
input, with a word boundary after it? -/
def seqHitsAt (alts : List (List (List Char))) (s : List Char) : Bool :=
  alts.any fun ws =>
    match seqAt ws s with
    | some rest => bAfter rest
    | none => false

/-- Scan the input for a word-bounded occurrence of one of the
alternative word sequences, i.e. the test of a regex of the shape
\b(w1\s*w2...|...)\b under the /i flag. -/
def scanSeqs (alts : List (List (List Char))) : Option Char → List Char → Bool
  | prev, [] => bOk prev && seqHitsAt alts []
  | prev, s =>
    match s with
    | [] => false
    | c :: rest => (bOk prev && seqHitsAt alts s) || scanSeqs alts (some c) rest

/-- Scan for a match of the first alternative group followed, anywhere
later in the input, by a match of the second group: the test of a regex
of the shape \bA\b.*\bB\b.  The character immediately before the
remainder after A is the final letter of A, a word character, so the
boundary state passed to the second scan is a word character.  (The JS
dot does not match a newline; the queries modelled here contain none.) -/
def scanOrdered (altsA altsB : List (List (List Char))) :
    Option Char → List Char → Bool
  | _, [] => false
  | prev, s@(c :: rest) =>
    (bOk prev && altsA.any fun ws =>
      match seqAt ws s with
      | some r => bAfter r && scanSeqs altsB (some 'a') r
      | none => false)
    || scanOrdered altsA altsB (some c) rest

/-- A pattern of the regex fragment used by the resolvers: either a
disjunction of word-bounded word sequences, or two such groups separated
by .* (ordered occurrence). -/
inductive Pat where
  | wseq (alts : List (List String))
  | ordered (first second : List (List String))
  deriving Repr, DecidableEq

/-- Convert alternative word lists to character lists. -/
def prepAlts (alts : List (List String)) : List (List (List Char)) :=
  alts.map (fun ws => ws.map String.toList)

/-- Test a pattern against a query string (case-insensitively, as with
the /i flag on the source regexes). -/
def patTest (p : Pat) (q : String) : Bool :=
  match p with
  | .wseq alts => scanSeqs (prepAlts alts) none q.toList
  | .ordered a b => scanOrdered (prepAlts a) (prepAlts b) none q.toList

/-- Does the haystack contain the needle as a contiguous substring?
Models JavaScript String.prototype.includes (both sides already folded
by the callers, as in the source). -/
def containsSub (hay needle : List Char) : Bool :=
  match hay with
  | [] => needle.isEmpty
  | _ :: t => needle.isPrefixOf hay || containsSub t needle

/-- String form of containsSub: hay.includes(needle). -/
def strContains (hay needle : String) : Bool :=
  containsSub hay.toList needle.toList

/-- Maximal run of decimal digits at the head of the input, together with
the rest; the run may be empty. -/
def digitRun : List Char → List Char × List Char
  | [] => ([], [])
  | c :: cs =>
    if isDigitCh c then
      let (d, r) := digitRun cs
      (c :: d, r)
    else ([], c :: cs)

/-- Value of a digit string (the behaviour of parseInt on an all-digit
capture). -/
def digitsToNat (ds : List Char) : Nat :=
  ds.foldl (fun a c => a * 10 + (c.toNat - 48)) 0

/-- Drop leading whitespace, modelling \s* by maximal munch. -/
def dropWs (s : List Char) : List Char := s.dropWhile isWs

/-- Trim whitespace at both ends, modelling String.prototype.trim. -/
def trimChars (s : List Char) : List Char :=
  ((s.dropWhile isWs).reverse.dropWhile isWs).reverse

/-- Split on runs of whitespace, returning the maximal non-whitespace
fragments.  The JS split(/\s+/) can additionally yield an empty leading
fragment when the string starts with whitespace; such a fragment is
shorter than 3 characters and scores nothing everywhere it is used, so it
is dropped here. -/
def splitWsAux (acc : List Char) : List Char → List (List Char)
  | [] => if acc.isEmpty then [] else [acc.reverse]
  | c :: cs =>
    if isWs c then
      if acc.isEmpty then splitWsAux [] cs else acc.reverse :: splitWsAux [] cs
    else splitWsAux (c :: acc) cs

def splitWs (s : List Char) : List (List Char) := splitWsAux [] s

/-- Add an element at the end unless already present: the effect of
adding to a JS Set that is later spread into an array (insertion order,
first occurrence kept). -/
def addUniq (l : List String) (s : String) : List String :=
  if s ∈ l then l else l ++ [s]

/-! ## Temporal resolver (whenTool, src: params/when.ts)

A date is its day count since 1970-01-01.  `getToday` of the source is
the ambient current day, threaded as the parameter `today`. -/

/-- JavaScript Date.getDay() for a day count: 0 = Sunday .. 6 = Saturday.
1970-01-01 was a Thursday (4). -/
def dayOfWeek (d : Int) : Int := (d + 4) % 7

/-- Day count of the civil date y-m-d (m in 1..12, d in 1..31); the
standard days-from-civil conversion.  Integer division on Int is
Euclidean here, which already floors, so the truncation guard of the
classic formulation is not needed. -/
def daysFromCivil (y : Int) (m d : Int) : Int :=
  let y2 := if m ≤ 2 then y - 1 else y
  let era := y2 / 400
  let yoe := y2 - era * 400
  let mp := if 2 < m then m - 3 else m + 9
  let doy := (153 * mp + 2) / 5 + d - 1
  let doe := yoe * 365 + yoe / 4 - yoe / 100 + doy
  era * 146097 + doe - 719468

/-- Civil date (year, month 1..12, day 1..31) of a day count; inverse of
daysFromCivil. -/
def civilFromDays (z0 : Int) : Int × Int × Int :=
  let z := z0 + 719468
  let era := z / 146097
  let doe := z - era * 146097
  let yoe := (doe - doe / 1460 + doe / 36524 - doe / 146096) / 365
  let y := yoe + era * 400
  let doy := doe - (365 * yoe + yoe / 4 - yoe / 100)
  let mp := (5 * doy + 2) / 153
  let d := doy - (153 * mp + 2) / 5 + 1
  let m := if mp < 10 then mp + 3 else mp - 9
  (if m ≤ 2 then y + 1 else y, m, d)

/-- The current year, as new Date().getFullYear() seen from a day count. -/
def yearOfDay (d : Int) : Int := (civilFromDays d).1

/-- Day count of the JS construction new Date(year, jsMonth, day) with
jsMonth in 0..11 and any day (JS normalises day overflow by adding
days past the first of the month). -/
def jsMakeDate (year jsMonth day : Int) : Int :=
  daysFromCivil year (jsMonth + 1) 1 + (day - 1)

/-- getThisWeekend: the upcoming Saturday (today itself counts when today
is Saturday) and the Sunday after it. -/
def thisWeekendStart (today : Int) : Int :=
  let w := dayOfWeek today
  today + (if w = 0 then 6 else 6 - w)

/-- getNextWeek: the following Monday. -/
def nextWeekStart (today : Int) : Int :=
  let w := dayOfWeek today
  today + (if w = 0 then 1 else 8 - w)

/-- The keyword classes returned by the temporal resolver. -/
inductive TKw where
  | today
  | tomorrow
  | weekend
  deriving Repr, DecidableEq

/-- Value of a detected time expression: a keyword, a date range, or a
single absolute date.  Day counts replace the serialised value/ISO
strings of the source; the `value`/`displayText` strings are determined
by the constructor and the day counts and are elided. -/
inductive TemporalValue where
  | kw (k : TKw) (startDay endDay : Int)
  | range (startDay endDay : Int)
  | date (day : Int)
  deriving Repr, DecidableEq

/-- Patterns of TEMPORAL_PATTERNS, one test per entry (the entry's regex
list is a disjunction). -/
def todayPat (q : String) : Bool :=
  patTest (.wseq [["today"], ["tonight"], ["this", "evening"]]) q

def tomorrowPat (q : String) : Bool :=
  patTest (.wseq [["tomorrow"]]) q

/-- Weekend entry: \b(this\s*)?weekend\b plus the sat-and-sun regex,
whose optional groups are expanded into explicit alternatives. -/
def weekendPat (q : String) : Bool :=
  patTest (.wseq [["this", "weekend"], ["weekend"]]) q ||
  patTest (.wseq
    [["saturday", "and", "sunday"], ["saturday", "and", "sun"],
     ["saturday", "&", "sunday"], ["saturday", "&", "sun"],
     ["saturday", "or", "sunday"], ["saturday", "or", "sun"],
     ["sat", "and", "sunday"], ["sat", "and", "sun"],
     ["sat", "&", "sunday"], ["sat", "&", "sun"],
     ["sat", "or", "sunday"], ["sat", "or", "sun"]]) q

/-- The pattern \bnext\s*week(?:end)?\b of the next-week entry. -/
def nextWeekPat (q : String) : Bool :=
  patTest (.wseq [["next", "weekend"], ["next", "week"]]) q

def thisWeekPat (q : String) : Bool :=
  patTest (.wseq [["this", "week"]]) q

def thisMonthPat (q : String) : Bool :=
  patTest (.wseq [["this", "month"]]) q

/-- Month spellings accepted by the absolute-date patterns, in regex
alternation order, longest spelling first within each month (greedy
optional suffixes), paired with the JS 0-based month index that the
MONTHS table assigns to the first three letters. -/
def monthAlts : List (List String × Int) :=
  [(["january", "jan"], 0), (["february", "feb"], 1), (["march", "mar"], 2),
   (["april", "apr"], 3), (["may"], 4), (["june", "jun"], 5),
   (["july", "jul"], 6), (["august", "aug"], 7),
   (["september", "sept", "sep"], 8), (["october", "oct"], 9),
   (["november", "nov"], 10), (["december", "dec"], 11)]

/-- Try the ordinal suffix (?:st|nd|rd|th)? at the head (greedy: consume
it when present). -/
def dropOrdinal (s : List Char) : List Char :=
  match litAt "st".toList s with
  | some r => r
  | none =>
    match litAt "nd".toList s with
    | some r => r
    | none =>
      match litAt "rd".toList s with
      | some r => r
      | none =>
        match litAt "th".toList s with
        | some r => r
        | none => s

/-- Take exactly n digits; fails when fewer are available. -/
def takeDigits : Nat → List Char → Option (List Char × List Char)
  | 0, s => some ([], s)
  | _ + 1, [] => none
  | n + 1, c :: cs =>
    if isDigitCh c then
      (takeDigits n cs).map (fun (d, r) => (c :: d, r))
    else none

/-- The optional year group (?:\s*,?\s*(\d{4}))? followed by the final
\b: first try with the year (greedy), else without.  Returns the parsed
year (or none) when the trailing boundary holds, and fails otherwise. -/
def yearBranch (currentYear : Int) (s : List Char) : Option Int :=
  let withYear : Option Int :=
    let s1 := dropWs s
    let s2 := match s1 with
      | ',' :: t => dropWs t
      | _ => s1
    match takeDigits 4 s2 with
    | some (ds, r) =>
      if bAfter r then some (digitsToNat ds : Int) else none
    | none => none
  match withYear with
  | some y => some y
  | none => if bAfter s then some currentYear else none

/-- Day digits \d{1,2}: try two digits (greedy) then one, continuing
with the given continuation; regex backtracking over this group. -/
def dayDigits (k : List Char → Nat → Option α) (s : List Char) : Option α :=
  match takeDigits 2 s with
  | some (ds, r) =>
    match k r (digitsToNat ds) with
    | some v => some v
    | none =>
      match takeDigits 1 s with
      | some (ds1, r1) => k r1 (digitsToNat ds1)
      | none => none
  | none =>
    match takeDigits 1 s with
    | some (ds1, r1) => k r1 (digitsToNat ds1)
    | none => none

/-- Attempt the "Month Day[, Year]" pattern at the head of the input
(boundary before already checked by the caller). -/
def monthDayAt (currentYear : Int) (s : List Char) : Option (Int × Int × Int) :=
  monthAlts.firstM fun (spellings, m) =>
    spellings.firstM fun sp =>
      match litAt sp.toList s with
      | none => none
      | some r =>
        dayDigits (fun r1 day =>
          (yearBranch currentYear (dropOrdinal r1)).map fun y => (y, m, (day : Int)))
          (dropWs r)

/-- Attempt the "Day Month[, Year]" pattern at the head of the input. -/
def dayMonthAt (currentYear : Int) (s : List Char) : Option (Int × Int × Int) :=
  dayDigits (fun r1 day =>
    let r2 := dropWs (dropOrdinal r1)
    monthAlts.firstM fun (spellings, m) =>
      spellings.firstM fun sp =>
        match litAt sp.toList r2 with
        | none => none
        | some r3 =>
          (yearBranch currentYear r3).map fun y => (y, m, (day : Int)))
    s

/-- Attempt the numeric \b(\d{1,2})[\/\-](\d{1,2})[\/\-](\d{4})\b pattern
at the head of the input.  Returns (year, month-1-based, day). -/
def slashDateAt (s : List Char) : Option (Int × Int × Int) :=
  dayDigits (fun r1 day =>
    match r1 with
    | sep :: r2 =>
      if sep = '/' || sep = '-' then
        dayDigits (fun r3 month =>
          match r3 with
          | sep2 :: r4 =>
            if sep2 = '/' || sep2 = '-' then
              match takeDigits 4 r4 with
              | some (ds, r5) =>
                if bAfter r5 then
                  some ((digitsToNat ds : Int), (month : Int), (day : Int))
                else none
              | none => none
            else none
          | [] => none) r2
      else none
    | [] => none) s

/-- Scan the input left to right for the first position with a preceding
word boundary where the given head matcher succeeds. -/
def scanFor (f : List Char → Option α) : Option Char → List Char → Option α
  | _, [] => none
  | prev, s@(c :: rest) =>
    match (if bOk prev then f s else none) with
    | some v => some v
    | none => scanFor f (some c) rest

/-- parseAbsoluteDate: the three date formats tried in order, each by a
leftmost scan; validity checks (month defined, day in 1..31) and the JS
Date constructor as in the source. -/
def parseAbsoluteDate (q : String) (today : Int) : Option Int :=
  let s := q.toList
  let cy := yearOfDay today
  match scanFor (monthDayAt cy) none s with
  | some (y, m, d) =>
    if 1 ≤ d ∧ d ≤ 31 then some (jsMakeDate y m d) else
      fallbackDayMonth s cy
  | none => fallbackDayMonth s cy
where
  fallbackDayMonth (s : List Char) (cy : Int) : Option Int :=
    match scanFor (dayMonthAt cy) none s with
    | some (y, m, d) =>
      if 1 ≤ d ∧ d ≤ 31 then some (jsMakeDate y m d) else fallbackSlash s
    | none => fallbackSlash s
  fallbackSlash (s : List Char) : Option Int :=
    match scanFor slashDateAt none s with
    | some (y, m1, d) =>
      if 1 ≤ m1 ∧ m1 ≤ 12 ∧ 1 ≤ d ∧ d ≤ 31 then
        some (jsMakeDate y (m1 - 1) d)
      else none
    | none => none

/-- The whenTool pattern dispatch: TEMPORAL_PATTERNS in order, then
absolute-date parsing, else nothing detected (detected = false).  The
source's end-of-day times (23:59:59.999) on range ends are at day
granularity here. -/
def whenDetect (q : String) (today : Int) : Option TemporalValue :=
  if todayPat q then some (.kw .today today today)
  else if tomorrowPat q then some (.kw .tomorrow (today + 1) (today + 1))
  else if weekendPat q then
    some (.kw .weekend (thisWeekendStart today) (thisWeekendStart today + 1))
  else if nextWeekPat q then
    some (.range (nextWeekStart today) (nextWeekStart today + 6))
  else if thisWeekPat q then
    some (.range today (today + (7 - dayOfWeek today)))
  else if thisMonthPat q then
    let c := civilFromDays today
    some (.range today (jsMakeDate c.1 c.2.1 0))
  else
    (parseAbsoluteDate q today).map .date

/-! ## Taxonomy (src: tools/taxonomy.ts) -/

structure InterestCategory where
  name : String
  secondaryCategories : List String
  interests : List String
  deriving Repr, DecidableEq

def INTEREST_CATEGORIES : List InterestCategory :=
  [⟨"Music",
    ["Live Music", "DJ/Club", "Concerts", "Music Festivals"],
    ["Live Performances", "DJ Nights", "Classical Music", "Rock/Metal",
     "Electronic/EDM", "Jazz/Blues", "Hip-Hop/Rap", "Indie/Alternative",
     "Pop", "Karaoke", "Open Mic"]⟩,
   ⟨"Entertainment",
    ["Comedy", "Theatre", "Movies", "Gaming"],
    ["Stand-up Comedy", "Improv Shows", "Theatre/Drama", "Film Screenings",
     "Gaming Events", "Esports", "Board Games", "Trivia Nights",
     "Magic Shows", "Circus/Cabaret"]⟩,
   ⟨"Food & Drink",
    ["Dining Experiences", "Bars & Pubs", "Food Events", "Workshops"],
    ["Fine Dining", "Street Food", "Food Festivals", "Wine Tasting",
     "Beer/Brewery Tours", "Cocktail Events", "Cooking Classes",
     "Coffee/Tea Events", "Brunches", "Pop-up Restaurants"]⟩,
   ⟨"Sports & Fitness",
    ["Watch Parties", "Participatory Sports", "Fitness Classes", "Adventure"],
    ["Cricket", "Football/Soccer", "Running/Marathons", "Cycling", "Yoga",
     "CrossFit/HIIT", "Swimming", "Combat Sports", "Dance Classes",
     "Team Sports"]⟩,
   ⟨"Arts & Culture",
    ["Visual Arts", "Museums", "Literary", "Cultural Events"],
    ["Art Exhibitions", "Museum Visits", "Photography", "Book Clubs",
     "Poetry Events", "Writing Workshops", "Cultural Festivals",
     "Heritage Walks", "Craft Workshops", "Design Events"]⟩,
   ⟨"Tech & Innovation",
    ["Meetups", "Conferences", "Workshops", "Hackathons"],
    ["Tech Talks", "Startup Events", "AI/ML Workshops", "Web Development",
     "Product Management", "Blockchain/Web3", "Data Science", "Hackathons",
     "Coding Bootcamps", "Tech Networking"]⟩,
   ⟨"Outdoor & Adventure",
    ["Nature", "Travel", "Extreme Sports", "Water Activities"],
    ["Hiking/Trekking", "Camping", "Rock Climbing", "Kayaking/Rafting",
     "Cycling Tours", "Wildlife Safari", "Stargazing", "Beach Activities",
     "Paragliding", "Road Trips"]⟩,
   ⟨"Wellness & Health",
    ["Mind & Body", "Alternative Healing", "Health Workshops", "Retreats"],
    ["Meditation", "Sound Healing", "Spa/Wellness", "Mental Health Workshops",
     "Nutrition Seminars", "Holistic Health", "Breathwork",
     "Wellness Retreats", "Detox Programs", "Self-care Events"]⟩,
   ⟨"Social & Networking",
    ["Professional", "Casual", "Community", "Dating"],
    ["Networking Events", "Business Meetups", "Expat Gatherings",
     "Singles Events", "Community Cleanups", "Volunteer Events",
     "Language Exchange", "Hobby Groups", "Pet Meetups", "Themed Parties"]⟩]

/-- The three tag lists assembled by findMatchingTags (Sets in insertion
order in the source). -/
structure TagMatches where
  categories : List String
  secondaryCategories : List String
  interests : List String
  deriving Repr, DecidableEq

/-- findMatchingTags: substring-match every keyword against every
taxonomy name at all three levels (name.toLowerCase().includes(keyword));
secondary and interest hits also add the parent category. -/
def findMatchingTags (keywords : List String) : TagMatches :=
  let ks := keywords.map lowerStr
  INTEREST_CATEGORIES.foldl
    (fun acc cat =>
      let acc1 :=
        if ks.any (fun k => strContains (lowerStr cat.name) k) then
          { acc with categories := addUniq acc.categories cat.name }
        else acc
      let acc2 := cat.secondaryCategories.foldl
        (fun a sec =>
          if ks.any (fun k => strContains (lowerStr sec) k) then
            { a with secondaryCategories := addUniq a.secondaryCategories sec,
                     categories := addUniq a.categories cat.name }
          else a) acc1
      cat.interests.foldl
        (fun a int =>
          if ks.any (fun k => strContains (lowerStr int) k) then
            { a with interests := addUniq a.interests int,
                     categories := addUniq a.categories cat.name }
          else a) acc2)
    ⟨[], [], []⟩

/-! ## Tag resolver (src: params/tags.ts) -/

/-- Stop words filtered out by extractKeywords. -/
def stopWords : List String :=
  ["a", "an", "the", "is", "are", "was", "were", "be", "been", "being",
   "have", "has", "had", "do", "does", "did", "will", "would", "could",
   "should", "may", "might", "can", "shall", "of", "at", "by", "for",
   "with", "about", "into", "through", "during", "before", "after",
   "above", "below", "to", "from", "up", "down", "in", "out", "on",
   "off", "over", "under", "again", "further", "then", "once", "here",
   "there", "when", "where", "why", "how", "all", "each", "few", "more",
   "most", "other", "some", "such", "no", "nor", "not", "only", "own",
   "same", "so", "than", "too", "very", "just", "and", "but", "if", "or",
   "because", "as", "until", "while", "i", "me", "my", "we", "our", "you",
   "your", "he", "him", "she", "her", "it", "they", "them", "what",
   "which", "who", "whom", "this", "that", "these", "those", "am",
   "looking", "want", "need", "find", "suggest", "recommend", "help",
   "please", "any", "something", "anything", "things", "events"]

/-- extractKeywords: lower-case, replace every character outside \w and
\s by a space, split on whitespace, keep tokens longer than 2 characters
that are not stop words. -/
def extractKeywords (query : String) : List String :=
  let cleaned := (lowerChars query.toList).map
    (fun c => if isWordChar c || isWs c then c else ' ')
  ((splitWs cleaned).map (fun w => (⟨w⟩ : String))).filter
    (fun w => 2 < w.length && !stopWords.contains w)

/-- One entry of SEMANTIC_PATTERNS. -/
structure SemPat where
  patterns : List Pat
  primaryCategories : List String
  secondaryCategories : List String
  interests : List String
  confidence : Nat
  highPriority : Bool
  deriving Repr, DecidableEq

/-- SEMANTIC_PATTERNS with the regexes written in the Pat fragment
(optional groups and suffixes expanded to explicit alternatives, greedy
order preserved). -/
def SEMANTIC_PATTERNS : List SemPat :=
  [ -- edm / electronic dance music / dj night|set|party
   ⟨[.wseq [["edm"]],
     .wseq [["electronic", "dance", "music"], ["electronic", "dance"],
            ["electronic", "music"], ["electronic"]],
     .wseq [["dj", "night"], ["dj", "set"], ["dj", "party"]]],
    ["Music"], ["Nightlife & Parties"], ["Electronic/EDM"], 95, true⟩,
   -- running / marathon / 5k|10k|21k|half marathon / fun run
   ⟨[.wseq [["running"]], .wseq [["marathon"]],
     .wseq [["5k"], ["10k"], ["21k"], ["half", "marathon"]],
     .wseq [["fun", "run"]]],
    ["Outdoor & Adventure"], ["Sports & Fitness"], ["Running/Marathons"],
    95, true⟩,
   -- yoga / wellness / meditation / mindfulness
   ⟨[.wseq [["yoga"]], .wseq [["wellness"]], .wseq [["meditation"]],
     .wseq [["mindfulness"]]],
    ["Health & Wellness"], [], ["Yoga/Meditation", "Wellness Retreats"],
    95, true⟩,
   -- team outing|building|activity / corporate outing|event
   ⟨[.wseq [["team", "outing"], ["team", "building"], ["team", "activity"]],
     .wseq [["corporate", "outing"], ["corporate", "event"]]],
    ["Social & Networking"], ["Outdoor & Adventure"],
    ["Team Building", "Corporate Events"], 90, true⟩,
   -- bachelor(ette) party|bash / stag party|night
   ⟨[.wseq [["bachelor", "party"], ["bachelor", "bash"],
            ["bachelorette", "party"], ["bachelorette", "bash"]],
     .wseq [["stag", "party"], ["stag", "night"]]],
    ["Nightlife & Parties", "Social & Networking"], [],
    ["Club Events", "Bars & Pubs"], 90, true⟩,
   -- birthday / bday
   ⟨[.wseq [["birthday"]], .wseq [["bday"]]],
    ["Social & Networking", "Entertainment"], ["Nightlife & Parties"], [],
    85, true⟩,
   -- watch parties
   ⟨[.ordered [["watch"], ["screening"], ["live", "screening"]]
              [["match"], ["game"], ["ipl"], ["cricket"], ["football"]],
     .ordered [["match"], ["game"], ["ipl"], ["cricket"], ["football"]]
              [["screening"], ["watch", "party"]],
     .wseq [["india", "vs"], ["ind", "vs"]]],
    ["Sports & Fitness", "Entertainment"], ["Nightlife & Parties"],
    ["Match Screenings", "Watch Parties"], 90, true⟩,
   -- date night|idea|activity / romantic / anniversary
   ⟨[.wseq [["date", "night"], ["date", "idea"], ["date", "activity"]],
     .wseq [["romantic"]], .wseq [["anniversary"]]],
    ["Food & Drink", "Entertainment", "Arts & Culture"], [],
    ["Fine Dining", "Live Music"], 85, true⟩,
   -- jazz / blues
   ⟨[.wseq [["jazz"]], .wseq [["blues"]]],
    ["Music"], [], ["Jazz/Blues"], 90, false⟩,
   -- rock / metal
   ⟨[.wseq [["rock"]], .wseq [["metal"]]],
    ["Music"], [], ["Rock/Metal"], 85, false⟩,
   -- indie / independent music
   ⟨[.wseq [["indie"]], .wseq [["independent", "music"]]],
    ["Music"], [], ["Indie Music"], 85, false⟩,
   -- classical / orchestra / symphony
   ⟨[.wseq [["classical"]], .wseq [["orchestra"]], .wseq [["symphony"]]],
    ["Music"], [], ["Classical/Orchestral"], 90, false⟩,
   -- hiking / trekking / trail
   ⟨[.wseq [["hiking"]], .wseq [["trekking"]], .wseq [["trail"]]],
    ["Outdoor & Adventure"], [], ["Hiking/Trekking"], 90, false⟩,
   -- startup / tech meetup|event|networking / programming
   ⟨[.wseq [["startup"]],
     .wseq [["tech", "meetup"], ["tech", "event"], ["tech", "networking"]],
     .wseq [["programming"]]],
    ["Tech & Innovation"], ["Social & Networking"],
    ["Startup Events", "Tech Meetups"], 85, false⟩,
   -- workshop / class(es) / learn
   ⟨[.wseq [["workshop"]], .wseq [["classes"], ["class"]],
     .wseq [["learn"]]],
    ["Learning & Development"], [], ["Workshops"], 80, false⟩,
   -- food festival|truck|fair / cuisine
   ⟨[.wseq [["food", "festival"], ["food", "truck"], ["food", "fair"]],
     .wseq [["cuisine"]]],
    ["Food & Drink"], [], ["Food Festivals"], 85, false⟩,
   -- wine / tasting / brewery
   ⟨[.wseq [["wine"]], .wseq [["tasting"]], .wseq [["brewery"]]],
    ["Food & Drink"], [], ["Wine Tasting", "Craft Beer"], 85, false⟩,
   -- comedy / stand up / standup
   ⟨[.wseq [["comedy"]], .wseq [["stand", "up"]], .wseq [["standup"]]],
    ["Entertainment"], [], ["Comedy Shows", "Stand-up"], 90, false⟩,
   -- theatre|theater / drama / play
   ⟨[.wseq [["theatre"], ["theater"]], .wseq [["drama"]], .wseq [["play"]]],
    ["Arts & Culture"], ["Entertainment"], ["Theater/Drama"], 85, false⟩,
   -- art exhibition|gallery|show / painting
   ⟨[.wseq [["art", "exhibition"], ["art", "gallery"], ["art", "show"]],
     .wseq [["painting"]]],
    ["Arts & Culture"], [], ["Art Exhibitions", "Painting"], 85, false⟩,
   -- club(bing) / night life / nightlife / party / parties
   ⟨[.wseq [["clubbing"], ["club"]], .wseq [["night", "life"]],
     .wseq [["nightlife"]], .wseq [["party"]], .wseq [["parties"]]],
    ["Nightlife & Parties"], [], ["Club Events"], 85, false⟩]

/-- The combined result assembled by matchSemanticPatterns. -/
structure MatchedTags where
  primaryCategories : List String
  secondaryCategories : List String
  interests : List String
  confidence : Nat
  deriving Repr, DecidableEq

/-- Union one matched entry into the accumulator (the Set adds and the
Math.max of the source loop). -/
def unionStep (acc : MatchedTags) (sp : SemPat) : MatchedTags :=
  { primaryCategories := sp.primaryCategories.foldl addUniq acc.primaryCategories
    secondaryCategories :=
      sp.secondaryCategories.foldl addUniq acc.secondaryCategories
    interests := sp.interests.foldl addUniq acc.interests
    confidence := max acc.confidence sp.confidence }

/-- Does a SEMANTIC_PATTERNS entry match the query (some of its regexes
tests true)? -/
def semMatches (q : String) (sp : SemPat) : Bool :=
  sp.patterns.any (fun p => patTest p q)

/-- The pattern list a stage works on: the high-priority entries only,
or every entry. -/
def stagePatterns (highPriorityOnly : Bool) : List SemPat :=
  cond highPriorityOnly (SEMANTIC_PATTERNS.filter (·.highPriority))
    SEMANTIC_PATTERNS

/-- matchSemanticPatterns: filter the stage's pattern list down to the
matching entries, return none when no entry matches, else the union of
the matched entries' tags with the maximum of their confidences. -/
def matchSemanticPatterns (q : String) (highPriorityOnly : Bool) :
    Option MatchedTags :=
  let matched := (stagePatterns highPriorityOnly).filter (semMatches q)
  if matched.isEmpty then none
  else some (matched.foldl unionStep ⟨[], [], [], 0⟩)

/-- The output of the tags tool: success is always true on the modelled
paths (the catch-all error path of the source is unreachable in this
pure model); the reasoning string is elided. -/
structure TagsOut where
  primaryCategories : List String
  secondaryCategories : List String
  interests : List String
  allTags : List String
  confidence : Nat
  deriving Repr, DecidableEq

/-- Flatten the three levels and dedup, as [...new Set(allTags)]. -/
def flattenTags (p s i : List String) : List String :=
  (p ++ s ++ i).foldl addUniq []

/-- The tagsTool cascade: high-priority semantic patterns at confidence
at least 0.85, then all semantic patterns at confidence at least 0.7,
then keyword matching (returned only when it hits a secondary or an
interest, at fixed confidence 0.7), then a low-confidence semantic
result if any, else the empty default at confidence 0.5. -/
def tagsResolve (query : String) (ctx : Option String := none) : TagsOut :=
  let fullQuery := match ctx with
    | some c => query ++ " " ++ c
    | none => query
  match matchSemanticPatterns fullQuery true with
  | some hp =>
    if 85 ≤ hp.confidence then
      ⟨hp.primaryCategories, hp.secondaryCategories, hp.interests,
       flattenTags hp.primaryCategories hp.secondaryCategories hp.interests,
       hp.confidence⟩
    else
      tagsResolveRest fullQuery
  | none => tagsResolveRest fullQuery
where
  tagsResolveRest (fullQuery : String) : TagsOut :=
    match matchSemanticPatterns fullQuery false with
    | some sr =>
      if 70 ≤ sr.confidence then
        ⟨sr.primaryCategories, sr.secondaryCategories, sr.interests,
         flattenTags sr.primaryCategories sr.secondaryCategories sr.interests,
         sr.confidence⟩
      else
        let km := findMatchingTags (extractKeywords fullQuery)
        if !km.interests.isEmpty || !km.secondaryCategories.isEmpty then
          ⟨km.categories, km.secondaryCategories, km.interests,
           flattenTags km.categories km.secondaryCategories km.interests, 70⟩
        else
          ⟨sr.primaryCategories, sr.secondaryCategories, sr.interests,
           flattenTags sr.primaryCategories sr.secondaryCategories sr.interests,
           sr.confidence⟩
    | none =>
      let km := findMatchingTags (extractKeywords fullQuery)
      if !km.interests.isEmpty || !km.secondaryCategories.isEmpty then
        ⟨km.categories, km.secondaryCategories, km.interests,
         flattenTags km.categories km.secondaryCategories km.interests, 70⟩
      else
        ⟨[], [], [], [], 50⟩

/-! ## Radius resolver (src: params/radius.ts) -/

def NEIGHBORHOODS : List String :=
  ["koramangala", "indiranagar", "hsr layout", "whitefield",
   "electronic city", "jayanagar", "jp nagar", "marathahalli", "bellandur",
   "sarjapur", "bandra", "andheri", "juhu", "powai", "worli", "lower parel",
   "malad", "aundh", "kothrud", "baner", "hinjewadi", "wakad",
   "viman nagar", "jubilee hills", "banjara hills", "madhapur",
   "gachibowli", "hitech city", "anna nagar", "t nagar", "adyar",
   "velachery", "ecr", "connaught place", "hauz khas", "vasant kunj",
   "dwarka", "saket"]

/-- Leftmost match of /within\s*(\d+)\s*km/i: no word boundaries in the
source regex, so any position where the literal parts line up counts.
The digit run is maximal (a shorter run would leave a digit where km must
start, so regex backtracking can never pick one). -/
def withinKmAt (s : List Char) : Option Nat :=
  match litAt "within".toList s with
  | none => none
  | some r =>
    let (ds, r1) := digitRun (dropWs r)
    if ds.isEmpty then none
    else
      match litAt "km".toList (dropWs r1) with
      | some _ => some (digitsToNat ds)
      | none => none

/-- Leftmost match of /(\d+)\s*km\s*(?:radius|around|near)/i. -/
def kmRadiusAt (s : List Char) : Option Nat :=
  let (ds, r1) := digitRun s
  if ds.isEmpty then none
  else
    match litAt "km".toList (dropWs r1) with
    | none => none
    | some r2 =>
      let r3 := dropWs r2
      if (litAt "radius".toList r3).isSome || (litAt "around".toList r3).isSome
          || (litAt "near".toList r3).isSome then
        some (digitsToNat ds)
      else none

/-- Scan every position (no boundary requirement) for a head match. -/
def scanAnywhere (f : List Char → Option α) : List Char → Option α
  | [] => f []
  | s@(_ :: rest) =>
    match f s with
    | some v => some v
    | none => scanAnywhere f rest

/-- The explicit-distance extraction of radiusTool:
query.match(within-regex) || query.match(km-radius-regex). -/
def explicitRadius (q : String) : Option Nat :=
  match scanAnywhere withinKmAt q.toList with
  | some n => some n
  | none => scanAnywhere kmRadiusAt q.toList

inductive LocationType where
  | neighborhood
  | city
  | region
  deriving Repr, DecidableEq

structure RadiusOut where
  radiusKm : Nat
  locationType : LocationType
  deriving Repr, DecidableEq

/-- The proximity phrases of AREA_CLASSIFICATIONS (the explicit-distance
entry is skipped by the source loop via its radius = -1 sentinel, so it
is omitted here). -/
def proximityClasses : List (Pat × Nat × LocationType) :=
  [(.wseq [["nearby"]], 3, .neighborhood),
   (.wseq [["near", "me"], ["near", "here"]], 3, .neighborhood),
   (.wseq [["close", "by"]], 3, .neighborhood),
   (.wseq [["walking", "distance"]], 3, .neighborhood),
   (.wseq [["in", "the", "area"]], 5, .neighborhood),
   (.wseq [["around", "here"]], 5, .neighborhood),
   (.wseq [["anywhere", "in"]], 25, .region),
   (.wseq [["all", "over"]], 25, .region),
   (.wseq [["throughout"]], 25, .region)]

/-- radiusTool: explicit distance wins; else known-neighborhood signal
gives 5 km; else proximity phrases; else 5 km when the detected location
contains (or is contained in) a known neighborhood name, 20 km for any
other detected location, and 20 km with no location.  The success flag
is constantly true and the reasoning string is elided. -/
def radiusResolve (query : String) (detectedLocation : Option String)
    (isNeighborhood : Option Bool) : RadiusOut :=
  let locationLower := lowerStr (detectedLocation.getD "")
  match explicitRadius query with
  | some n =>
    ⟨n, if n ≤ 5 then .neighborhood else if n ≤ 25 then .city else .region⟩
  | none =>
    if isNeighborhood.getD false || NEIGHBORHOODS.contains locationLower then
      ⟨5, .neighborhood⟩
    else
      match proximityClasses.find? (fun (p, _, _) => patTest p (lowerStr query)) with
      | some (_, r, t) => ⟨r, t⟩
      | none =>
        -- the source guards on JS truthiness, so the empty string behaves
        -- like an absent location
        if (detectedLocation.getD "").isEmpty then ⟨20, .city⟩
        else if NEIGHBORHOODS.any (fun n =>
            strContains locationLower n || strContains n locationLower) then
          ⟨5, .neighborhood⟩
        else ⟨20, .city⟩

/-! ## Limit resolver (src: limit tool in params/budget.ts bundle) -/

/-- Leftmost word-bounded match of \btop\s*(\d+)\b. -/
def topNAt (s : List Char) : Option Nat :=
  match litAt "top".toList s with
  | none => none
  | some r =>
    let (ds, r1) := digitRun (dropWs r)
    if ds.isEmpty then none
    else if bAfter r1 then some (digitsToNat ds) else none

/-- The pattern \b(\d+)\s*(?:best|events?|options?|suggestions?)\b. -/
def nThingsAt (s : List Char) : Option Nat :=
  let (ds, r1) := digitRun s
  if ds.isEmpty then none
  else
    let r2 := dropWs r1
    let try1 (w : String) : Bool :=
      match litAt w.toList r2 with
      | some r3 => bAfter r3
      | none => false
    if try1 "best" || try1 "events" || try1 "event" || try1 "options"
        || try1 "option" || try1 "suggestions" || try1 "suggestion" then
      some (digitsToNat ds)
    else none

/-- The pattern \bgive\s*(?:me\s*)?(\d+)\b and its "show" twin. -/
def giveNAt (verb : String) (s : List Char) : Option Nat :=
  match litAt verb.toList s with
  | none => none
  | some r =>
    let r1 := dropWs r
    let digitsHere (t : List Char) : Option Nat :=
      let (ds, r2) := digitRun t
      if ds.isEmpty then none
      else if bAfter r2 then some (digitsToNat ds) else none
    match litAt "me".toList r1 with
    | some rm =>
      match digitsHere (dropWs rm) with
      | some n => some n
      | none => digitsHere r1
    | none => digitsHere r1

/-- The explicit-number extraction of limitTool (the four regexes tried
with ||, each by a leftmost boundary-respecting scan). -/
def explicitLimit (q : String) : Option Nat :=
  let s := q.toList
  match scanFor topNAt none s with
  | some n => some n
  | none =>
    match scanFor nThingsAt none s with
    | some n => some n
    | none =>
      match scanFor (giveNAt "give") none s with
      | some n => some n
      | none => scanFor (giveNAt "show") none s

/-- The qualitative LIMIT_PATTERNS (the explicit-number entry is skipped
by the source loop via its limit = -1 sentinel, so it is omitted). -/
def qualitativeLimits : List (Pat × Nat) :=
  [(.wseq [["just", "one"]], 1), (.wseq [["the", "best"]], 1),
   (.wseq [["single"]], 1), (.wseq [["one", "event"]], 1),
   (.wseq [["a", "few"]], 3), (.wseq [["some"]], 3),
   (.wseq [["couple"]], 3),
   (.wseq [["many"]], 10), (.wseq [["lots", "of"], ["lot", "of"]], 10),
   (.wseq [["several"]], 10), (.wseq [["all"]], 10)]

/-- limitTool: an explicit number is clamped to [1,20]; else the first
matching qualitative phrase decides; else the supplied default (3 when
the caller omits it) is returned as is. -/
def limitResolve (query : String) (defaultLimit : Int := 3) : Int :=
  match explicitLimit query with
  | some n => (min (max (n : Int) 1) 20)
  | none =>
    match qualitativeLimits.find? (fun (p, _) => patTest p query) with
    | some (_, l) => (l : Int)
    | none => defaultLimit

/-! ## Location resolver (coordinatesTool, src: params/coordinates.ts)

Coordinates are (latitude, longitude) scaled by 10^4. -/

abbrev Coords := Int × Int

/-- INDIAN_CITY_COORDINATES in its source (insertion) key order. -/
def INDIAN_CITY_COORDINATES : List (String × Coords) :=
  [("bangalore", (129716, 775946)), ("bengaluru", (129716, 775946)),
   ("mumbai", (190760, 728777)), ("delhi", (286139, 772090)),
   ("new delhi", (286139, 772090)), ("chennai", (130827, 802707)),
   ("hyderabad", (173850, 784867)), ("pune", (185204, 738567)),
   ("kolkata", (225726, 883639)), ("ahmedabad", (230225, 725714)),
   ("jaipur", (269124, 757873)), ("lucknow", (268467, 809462)),
   ("chandigarh", (307333, 767794)), ("goa", (152993, 741240)),
   ("kochi", (99312, 762673)), ("gurgaon", (284595, 770266)),
   ("gurugram", (284595, 770266)), ("noida", (285355, 773910)),
   ("koramangala", (129352, 776245)), ("indiranagar", (129784, 776408)),
   ("hsr layout", (129081, 776476)), ("whitefield", (129698, 777499)),
   ("bandra", (190596, 728295)), ("andheri", (191136, 728697)),
   ("aundh", (185590, 738076))]

/-- getQuickCoordinates: lower-case, trim, table lookup. -/
def getQuickCoordinates (location : String) : Option Coords :=
  let normalized : String := ⟨trimChars (lowerChars location.toList)⟩
  (INDIAN_CITY_COORDINATES.find? (fun (k, _) => k = normalized)).map (·.2)

/-- Lazy capture ([a-zA-Z\s]+?) followed by a terminator: take class
characters one at a time and stop at the first point where the
terminator matches the rest, as a lazy quantifier does.  Returns the
capture (at least one character). -/
def lazyCapture (cls : Char → Bool) (term : List Char → Bool) :
    List Char → List Char → Option (List Char)
  | _, [] => none
  | acc, c :: rest =>
    if cls c then
      if term rest then some (acc ++ [c])
      else lazyCapture cls term (acc ++ [c]) rest
    else none

/-- The capture class [a-zA-Z\s]. -/
def isAlphaWs (c : Char) : Bool :=
  let n := c.toNat
  (65 ≤ n && n ≤ 90) || (97 ≤ n && n ≤ 122) || isWs c

/-- Terminator (?:\s+w1|\s+w2|...|\?|$): end of input, a question mark,
or at least one whitespace character followed by one of the given words
(with no boundary after the word, matching the source regexes). -/
def termAlts (ws : List String) (rest : List Char) : Bool :=
  match rest with
  | [] => true
  | '?' :: _ => true
  | c :: t =>
    isWs c && ws.any (fun w => (litAt w.toList (dropWs t)).isSome)

/-- Run the lazy capture after consuming k whitespace characters for the
\s+ that precedes it, trying the largest k first (greedy \s+, then
backtracking), never fewer than one. -/
def wsThenCapture (term : List Char → Bool) (r : List Char) :
    Nat → Option (List Char)
  | 0 => none
  | k + 1 =>
    match lazyCapture isAlphaWs term [] (r.drop (k + 1)) with
    | some c => some c
    | none => wsThenCapture term r k

/-- Head match of one "in/near/around X" pattern: the keyword, \s+ (with
backtracking), then the lazy capture. -/
def locPatternAt (keyword : String) (terms : List String) (s : List Char) :
    Option (List Char) :=
  match litAt keyword.toList s with
  | none => none
  | some r => wsThenCapture (termAlts terms) r (r.takeWhile isWs).length

/-- The anchored pattern ^([a-zA-Z\s]+?)\s+(?:events?|concerts?|shows?):
a lazy capture from position 0 whose terminator is whitespace followed by
one of the event words (end of input and question marks do not terminate
this pattern). -/
def cityEventsCapture (s : List Char) : Option (List Char) :=
  let term : List Char → Bool := fun rest =>
    match rest with
    | [] => false
    | c :: t =>
      isWs c && ["event", "concert", "show"].any
        (fun w => (litAt w.toList (dropWs t)).isSome)
  lazyCapture isAlphaWs term [] s

/-- The ordered surface patterns of coordinatesTool, each tried by a
leftmost boundary-respecting scan; the first capture wins.  The captured
text is trimmed by the caller. -/
def locationPatternCapture (q : String) : Option (List Char) :=
  let s := q.toList
  match scanFor
      (locPatternAt "in" ["for", "this", "next", "today", "tomorrow"]) none s with
  | some c => some c
  | none =>
    match scanFor (locPatternAt "near" ["for", "this", "next"]) none s with
    | some c => some c
    | none =>
      match scanFor (locPatternAt "around" ["for", "this"]) none s with
      | some c => some c
      | none => cityEventsCapture s

/-- Fallback scan: the first table key occurring as a substring of the
lower-cased query, in table order. -/
def knownCityScan (queryLower : String) : Option String :=
  (INDIAN_CITY_COORDINATES.find?
    (fun (k, _) => strContains queryLower k)).map (·.1)

/-- The location detection phase: surface patterns, then known-name scan,
then the supplied default city.  A capture that trims to the empty
string is falsy in the source, so it falls through to the scan and to
the default exactly like no capture at all (the pattern loop has already
been left at that point). -/
def detectLocation (query : String) (defaultCity : Option String) :
    Option String :=
  let fallback :=
    match knownCityScan (lowerStr query) with
    | some k => some k
    | none =>
      match defaultCity with
      | some d => if d.isEmpty then none else some d
      | none => none
  match locationPatternCapture query with
  | some cap =>
    let t : String := ⟨trimChars cap⟩
    if t.isEmpty then fallback else some t
  | none => fallback

/-- The curated neighborhood names checked against the query. -/
def coordNeighborhoods : List String :=
  ["koramangala", "indiranagar", "hsr layout", "whitefield",
   "bandra", "andheri", "aundh"]

/-- Result of the coordinates tool; the error message is kept verbatim
for the no-location case and abbreviated to its static prefix plus the
candidate for the geocoding-failure case. -/
structure CoordsOut where
  success : Bool
  coordinates : Option Coords
  location : Option String
  isNeighborhood : Bool
  confidence : Nat
  error : Option String
  deriving Repr, DecidableEq

/-- An external geocoding outcome (Google Maps path), abstracted: the
display name, coordinates and mapped confidence of a successful call. -/
structure GeoHit where
  coords : Coords
  displayName : String
  confidence : Nat
  deriving Repr, DecidableEq

/-- coordinatesTool: detection, failure when nothing was detected,
neighborhood flag from the query, static-table lookup at confidence 0.95,
external geocoding second, failure result otherwise.  The geocoder (an
awaited network call in the source) is passed in as a function. -/
def coordinatesResolve (query : String) (defaultCity : Option String)
    (geo : String → Option GeoHit) : CoordsOut :=
  match detectLocation query defaultCity with
  | none =>
    ⟨false, none, none, false, 0,
     some "Could not detect any location in the query"⟩
  | some detected =>
    let isNb := coordNeighborhoods.any
      (fun n => strContains (lowerStr query) n)
    match getQuickCoordinates detected with
    | some co => ⟨true, some co, some detected, isNb, 95, none⟩
    | none =>
      match geo detected with
      | some g => ⟨true, some g.coords, some g.displayName, isNb,
                   g.confidence, none⟩
      | none =>
        ⟨false, none, some detected, false, 0,
         some ("Could not find coordinates for " ++ detected)⟩

/-! ## Event retrieval and ranking (eventSearchTool, src: event-search.ts)

Only the locally computed steps are modelled: the client-side tag
filter, the optional relevance ranking and the truncation/total count.
Events carry the four fields those steps read. -/

structure EventR where
  name : String
  description : String
  category : String
  tags : List String
  deriving Repr, DecidableEq

/-- The per-event keep test of the client-side tag filter: some filter
tag and some event tag contain one another (either direction), or some
filter tag and the category contain one another.  The filter tags are
already lower-cased by the caller. -/
def eventKeep (normTags : List String) (e : EventR) : Bool :=
  let eventTags := e.tags.map lowerStr
  let eventCategory := lowerStr e.category
  normTags.any (fun ft =>
    eventTags.any (fun et => strContains et ft || strContains ft et))
  || normTags.any (fun ft =>
    strContains eventCategory ft || strContains ft eventCategory)

/-- Relevance score of one event for the given lower-cased query tokens:
per token of length at least 3, +3 when the name contains it, +2 when a
tag contains it, +1 when the description contains it. -/
def relScore (qws : List (List Char)) (e : EventR) : Nat :=
  let nm := lowerChars e.name.toList
  let ds := lowerChars e.description.toList
  let tg := e.tags.map (fun t => lowerChars t.toList)
  qws.foldl
    (fun sc w =>
      if w.length < 3 then sc
      else
        sc + (if containsSub nm w then 3 else 0)
           + (if tg.any (fun t => containsSub t w) then 2 else 0)
           + (if containsSub ds w then 1 else 0))
    0

/-- Stable insertion of an element into a list sorted by descending
score: it goes in front of the first element whose score is not larger,
hence in front of equal-scored elements that were later in the original
list and behind those that were earlier. -/
def insScoreDesc {α : Type} (f : α → Nat) (x : α) : List α → List α
  | [] => [x]
  | y :: ys => if f y ≤ f x then x :: y :: ys else y :: insScoreDesc f x ys

/-- Stable sort by descending score.  ECMAScript Array.prototype.sort is
required to be stable, and a stable sort by a fixed comparator is
extensionally unique, so this insertion sort is the JS
sort((a, b) => scoreB - scoreA) of the source. -/
def sortScoreDesc {α : Type} (f : α → Nat) : List α → List α
  | [] => []
  | x :: xs => insScoreDesc f x (sortScoreDesc f xs)

/-- rankByRelevance: split the lower-cased query on whitespace and sort
the events by descending relevance score. -/
def rankByRelevance (events : List EventR) (query : String) : List EventR :=
  sortScoreDesc (relScore (splitWs (lowerChars query.toList))) events

structure SearchOut where
  events : List EventR
  totalFound : Nat
  deriving Repr, DecidableEq

/-- Steps 5 and 6 of the eventSearchTool pipeline on the mapped events:
client-side tag filtering when tags were given, relevance ranking when a
non-empty query accompanies the search and some events remain, then
truncation to the limit, with totalFound the pre-truncation survivor
count. -/
def searchLocal (events : List EventR) (tags : List String)
    (query : Option String) (limit : Nat) : SearchOut :=
  let survivors :=
    if tags.isEmpty then events
    else events.filter (eventKeep (tags.map lowerStr))
  let ranked :=
    match query with
    | some q =>
      if !q.isEmpty && !survivors.isEmpty then rankByRelevance survivors q
      else survivors
    | none => survivors
  ⟨ranked.take limit, survivors.length⟩

/-! ## Model-based tag fallback validation (src: reddit-monitor.ts,
extractTagsWithAI).  The language-model call itself is external; its
schema-shaped response is the input here, and only the taxonomy
validation and packaging of the source are modelled. -/

structure AIResponse where
  primaryCategories : List String
  secondaryCategories : List String
  interests : List String
  deriving Repr, DecidableEq

def isValidPrimary (s : String) : Bool :=
  INTEREST_CATEGORIES.any (fun c => c.name = s)

def isValidSecondary (s : String) : Bool :=
  INTEREST_CATEGORIES.any (fun c => c.secondaryCategories.contains s)

def isValidInterest (s : String) : Bool :=
  INTEREST_CATEGORIES.any (fun c => c.interests.contains s)

/-- The validation stage of extractTagsWithAI: drop every name that is
not in the taxonomy at the corresponding level; when nothing at all
survives return none (so the cascade falls through); otherwise package
the survivors at the fixed confidence 0.75. -/
def aiValidate (resp : AIResponse) : Option MatchedTags :=
  let validPrimary := resp.primaryCategories.filter isValidPrimary
  let validSecondary := resp.secondaryCategories.filter isValidSecondary
  let validInterests := resp.interests.filter isValidInterest
  if validPrimary.isEmpty && validSecondary.isEmpty && validInterests.isEmpty
  then none
  else some ⟨validPrimary, validSecondary, validInterests, 75⟩

/-! ## Helper lemmas -/

section SortLemmas

variable {α : Type} (f : α → Nat)

theorem insScoreDesc_perm (x : α) (l : List α) :
    (insScoreDesc f x l).Perm (x :: l) := by
  induction l with
  | nil => simp [insScoreDesc]
  | cons y ys ih =>
    simp only [insScoreDesc]
    split
    · exact List.Perm.refl _
    · exact ((ih.cons y).trans (List.Perm.swap x y ys))

theorem sortScoreDesc_perm (l : List α) : (sortScoreDesc f l).Perm l := by
  induction l with
  | nil => simp [sortScoreDesc]
  | cons x xs ih =>
    exact (insScoreDesc_perm f x (sortScoreDesc f xs)).trans (ih.cons x)

theorem insScoreDesc_pairwise (x : α) (l : List α)
    (h : l.Pairwise (fun a b => f b ≤ f a)) :
    (insScoreDesc f x l).Pairwise (fun a b => f b ≤ f a) := by
  induction l with
  | nil => simp [insScoreDesc]
  | cons y ys ih =>
    simp only [insScoreDesc]
    rcases List.pairwise_cons.mp h with ⟨hy, hys⟩
    split
    · rename_i hle
      refine List.pairwise_cons.mpr ⟨?_, h⟩
      intro b hb
      rcases List.mem_cons.mp hb with rfl | hb
      · exact hle
      · exact le_trans (hy b hb) hle
    · rename_i hgt
      push_neg at hgt
      refine List.pairwise_cons.mpr ⟨?_, ih hys⟩
      intro b hb
      have := (insScoreDesc_perm f x ys).mem_iff.mp hb
      rcases List.mem_cons.mp this with rfl | hb2
      · exact le_of_lt hgt
      · exact hy b hb2

theorem sortScoreDesc_pairwise (l : List α) :
    (sortScoreDesc f l).Pairwise (fun a b => f b ≤ f a) := by
  induction l with
  | nil => simp [sortScoreDesc]
  | cons x xs ih =>
    exact insScoreDesc_pairwise f x _ ih

theorem insScoreDesc_filter_eq (x : α) (l : List α) (n : Nat)
    (h : l.Pairwise (fun a b => f b ≤ f a)) :
    (insScoreDesc f x l).filter (fun e => f e == n) =
      if f x = n then x :: l.filter (fun e => f e == n)
      else l.filter (fun e => f e == n) := by
  induction l with
  | nil =>
    by_cases hx : f x = n <;> simp [insScoreDesc, List.filter_cons, hx]
  | cons y ys ih =>
    rcases List.pairwise_cons.mp h with ⟨hy, hys⟩
    simp only [insScoreDesc]
    split
    · rename_i hle
      by_cases hx : f x = n <;> by_cases hyn : f y = n <;>
        simp [List.filter_cons, hx, hyn]
    · rename_i hgt
      push_neg at hgt
      by_cases hyn : f y = n
      · -- every element of ys scores at most f y = n and f x < f y, so the
        -- inserted element contributes nothing at score n
        have hxn : f x ≠ n := by omega
        simp [List.filter_cons, ih hys, hyn, hxn]
      · by_cases hx : f x = n <;>
          simp [List.filter_cons, ih hys, hyn, hx]

theorem sortScoreDesc_filter_eq (l : List α) (n : Nat) :
    (sortScoreDesc f l).filter (fun e => f e == n) =
      l.filter (fun e => f e == n) := by
  induction l with
  | nil => simp [sortScoreDesc]
  | cons x xs ih =>
    simp only [sortScoreDesc]
    rw [insScoreDesc_filter_eq f x _ n (sortScoreDesc_pairwise f xs), ih]
    by_cases hx : f x = n
    · simp [List.filter, hx]
    · have : (f x == n) = false := by simp [hx]
      simp [List.filter, this, hx]

end SortLemmas

section UnionLemmas

theorem mem_addUniq {l : List String} {s x : String} :
    x ∈ addUniq l s ↔ x ∈ l ∨ x = s := by
  simp only [addUniq]
  split
  · rename_i h
    constructor
    · exact fun hx => Or.inl hx
    · rintro (hx | rfl)
      · exact hx
      · exact h
  · simp [List.mem_append]

theorem mem_foldl_addUniq {ws : List String} {init : List String} {x : String} :
    x ∈ ws.foldl addUniq init ↔ x ∈ init ∨ x ∈ ws := by
  induction ws generalizing init with
  | nil => simp
  | cons w ws ih =>
    simp only [List.foldl_cons, ih, mem_addUniq, List.mem_cons]
    tauto

theorem mem_flattenTags {p s i : List String} {x : String} :
    x ∈ flattenTags p s i ↔ x ∈ p ∨ x ∈ s ∨ x ∈ i := by
  simp [flattenTags, mem_foldl_addUniq, List.mem_append, or_assoc]

/-- Membership in the primary component of the union fold. -/
theorem mem_primary_foldl_unionStep {l : List SemPat} {acc : MatchedTags}
    {x : String} :
    x ∈ (l.foldl unionStep acc).primaryCategories ↔
      x ∈ acc.primaryCategories ∨ ∃ sp ∈ l, x ∈ sp.primaryCategories := by
  induction l generalizing acc with
  | nil => simp
  | cons sp l ih =>
    simp only [List.foldl_cons, ih, unionStep, mem_foldl_addUniq,
      List.mem_cons]
    constructor
    · rintro (⟨h | h⟩ | ⟨sp2, hsp2, hx⟩)
      · exact Or.inl h
      · exact Or.inr ⟨sp, Or.inl rfl, h⟩
      · exact Or.inr ⟨sp2, Or.inr hsp2, hx⟩
    · rintro (h | ⟨sp2, (rfl | hsp2), hx⟩)
      · exact Or.inl (Or.inl h)
      · exact Or.inl (Or.inr hx)
      · exact Or.inr ⟨sp2, hsp2, hx⟩

theorem mem_secondary_foldl_unionStep {l : List SemPat} {acc : MatchedTags}
    {x : String} :
    x ∈ (l.foldl unionStep acc).secondaryCategories ↔
      x ∈ acc.secondaryCategories ∨ ∃ sp ∈ l, x ∈ sp.secondaryCategories := by
  induction l generalizing acc with
  | nil => simp
  | cons sp l ih =>
    simp only [List.foldl_cons, ih, unionStep, mem_foldl_addUniq,
      List.mem_cons]
    constructor
    · rintro (⟨h | h⟩ | ⟨sp2, hsp2, hx⟩)
      · exact Or.inl h
      · exact Or.inr ⟨sp, Or.inl rfl, h⟩
      · exact Or.inr ⟨sp2, Or.inr hsp2, hx⟩
    · rintro (h | ⟨sp2, (rfl | hsp2), hx⟩)
      · exact Or.inl (Or.inl h)
      · exact Or.inl (Or.inr hx)
      · exact Or.inr ⟨sp2, hsp2, hx⟩

theorem mem_interests_foldl_unionStep {l : List SemPat} {acc : MatchedTags}
    {x : String} :
    x ∈ (l.foldl unionStep acc).interests ↔
      x ∈ acc.interests ∨ ∃ sp ∈ l, x ∈ sp.interests := by
  induction l generalizing acc with
  | nil => simp
  | cons sp l ih =>
    simp only [List.foldl_cons, ih, unionStep, mem_foldl_addUniq,
      List.mem_cons]
    constructor
    · rintro (⟨h | h⟩ | ⟨sp2, hsp2, hx⟩)
      · exact Or.inl h
      · exact Or.inr ⟨sp, Or.inl rfl, h⟩
      · exact Or.inr ⟨sp2, Or.inr hsp2, hx⟩
    · rintro (h | ⟨sp2, (rfl | hsp2), hx⟩)
      · exact Or.inl (Or.inl h)
      · exact Or.inl (Or.inr hx)
      · exact Or.inr ⟨sp2, hsp2, hx⟩

/-- The accumulator confidence never decreases along the fold. -/
theorem conf_foldl_acc_le {l : List SemPat} {acc : MatchedTags} :
    acc.confidence ≤ (l.foldl unionStep acc).confidence := by
  induction l generalizing acc with
  | nil => simp
  | cons sp l ih =>
    calc acc.confidence ≤ (unionStep acc sp).confidence := by simp [unionStep]
      _ ≤ _ := ih

theorem conf_foldl_unionStep_le {l : List SemPat} {acc : MatchedTags}
    {sp : SemPat} (h : sp ∈ l) :
    sp.confidence ≤ (l.foldl unionStep acc).confidence := by
  induction l generalizing acc with
  | nil => cases h
  | cons sp2 l ih =>
    rcases List.mem_cons.mp h with rfl | h2
    · have h1 : sp.confidence ≤ (unionStep acc sp).confidence := by
        simp [unionStep]
      calc sp.confidence ≤ (unionStep acc sp).confidence := h1
        _ ≤ (l.foldl unionStep (unionStep acc sp)).confidence :=
            conf_foldl_acc_le
    · exact ih h2

/-- The confidence of the fold is attained: it equals the accumulator's
or the confidence of some entry of the list. -/
theorem conf_foldl_unionStep_attained {l : List SemPat} {acc : MatchedTags} :
    (l.foldl unionStep acc).confidence = acc.confidence ∨
      ∃ sp ∈ l, (l.foldl unionStep acc).confidence = sp.confidence := by
  induction l generalizing acc with
  | nil => simp
  | cons sp l ih =>
    rcases @ih (unionStep acc sp) with h | ⟨sp2, hsp2, h⟩
    · have hc : (List.foldl unionStep acc (sp :: l)).confidence =
          max acc.confidence sp.confidence := by
        rw [List.foldl_cons, h]
        simp [unionStep]
      rcases Nat.le_total acc.confidence sp.confidence with hle | hle
      · right
        exact ⟨sp, List.mem_cons_self _ _, by rw [hc, Nat.max_eq_right hle]⟩
      · left
        rw [hc, Nat.max_eq_left hle]
    · right
      refine ⟨sp2, List.mem_cons_of_mem _ hsp2, ?_⟩
      rw [List.foldl_cons]
      exact h

end UnionLemmas

section MspLemmas

/-- Characterisation of a successful matchSemanticPatterns call. -/
theorem msp_some_iff {q : String} {hp : Bool} {r : MatchedTags} :
    matchSemanticPatterns q hp = some r ↔
      (stagePatterns hp).filter (semMatches q) ≠ [] ∧
      r = ((stagePatterns hp).filter (semMatches q)).foldl unionStep
            ⟨[], [], [], 0⟩ := by
  simp only [matchSemanticPatterns]
  split
  · rename_i h
    simp only [List.isEmpty_eq_true] at h
    simp [h]
  · rename_i h
    simp only [List.isEmpty_eq_true] at h
    constructor
    · intro he
      exact ⟨h, (Option.some_inj.mp he).symm⟩
    · rintro ⟨_, rfl⟩
      rfl

/-- A failed matchSemanticPatterns call means no entry of the stage
matches. -/
theorem msp_none_iff {q : String} {hp : Bool} :
    matchSemanticPatterns q hp = none ↔
      ∀ sp ∈ stagePatterns hp, semMatches q sp = false := by
  simp only [matchSemanticPatterns]
  split
  · rename_i h
    simp only [List.isEmpty_eq_true, List.filter_eq_nil_iff] at h
    simp only [true_iff]
    intro sp hsp
    exact Bool.not_eq_true _ ▸ Bool.of_not_eq_true (h sp hsp)
  · rename_i h
    simp only [List.isEmpty_eq_true, List.filter_eq_nil_iff] at h
    constructor
    · intro he
      cases he
    · intro hall
      exact absurd (fun sp hsp => by simp [hall sp hsp]) h

/-- Every stage entry is a SEMANTIC_PATTERNS entry. -/
theorem stagePatterns_subset {hp : Bool} {sp : SemPat}
    (h : sp ∈ stagePatterns hp) : sp ∈ SEMANTIC_PATTERNS := by
  cases hp
  · simpa [stagePatterns] using h
  · exact List.mem_of_mem_filter (by simpa [stagePatterns] using h)

/-- High-priority stage entries carry the highPriority flag. -/
theorem stagePatterns_true_hp {sp : SemPat} (h : sp ∈ stagePatterns true) :
    sp.highPriority = true := by
  simp only [stagePatterns, cond_true, List.mem_filter] at h
  exact h.2

/-- If the general stage finds nothing, neither does the high-priority
stage (its pattern list is a sublist). -/
theorem msp_true_none_of_false_none {q : String}
    (h : matchSemanticPatterns q false = none) :
    matchSemanticPatterns q true = none := by
  rw [msp_none_iff] at h ⊢
  intro sp hsp
  refine h sp ?_
  simpa [stagePatterns] using stagePatterns_subset hsp

/-- Every pattern entry carries confidence at least 0.8. -/
theorem semantic_conf_ge_80 : ∀ sp ∈ SEMANTIC_PATTERNS, 80 ≤ sp.confidence := by
  decide

/-- Every high-priority pattern entry carries confidence at least 0.85. -/
theorem semantic_hp_conf_ge_85 :
    ∀ sp ∈ SEMANTIC_PATTERNS, sp.highPriority = true → 85 ≤ sp.confidence := by
  decide

/-- Every stage entry carries confidence at least 0.8, so a successful
stage result does too (its confidence is attained by a matched entry). -/
theorem msp_conf_ge_80 {q : String} {hp : Bool} {r : MatchedTags}
    (h : matchSemanticPatterns q hp = some r) : 80 ≤ r.confidence := by
  rcases msp_some_iff.mp h with ⟨hne, rfl⟩
  rcases @conf_foldl_unionStep_attained
      ((stagePatterns hp).filter (semMatches q)) ⟨[], [], [], 0⟩
    with hz | ⟨sp, hsp, he⟩
  · rcases List.exists_mem_of_ne_nil _ hne with ⟨sp0, hsp0⟩
    have h80 : 80 ≤ sp0.confidence :=
      semantic_conf_ge_80 sp0
        (stagePatterns_subset (List.mem_of_mem_filter hsp0))
    have := @conf_foldl_unionStep_le _ ⟨[], [], [], 0⟩ _ hsp0
    omega
  · rw [he]
    exact semantic_conf_ge_80 sp
      (stagePatterns_subset (List.mem_of_mem_filter hsp))

/-- A successful high-priority stage result carries confidence at least
0.85. -/
theorem msp_hp_conf_ge_85 {q : String} {r : MatchedTags}
    (h : matchSemanticPatterns q true = some r) : 85 ≤ r.confidence := by
  rcases msp_some_iff.mp h with ⟨hne, rfl⟩
  rcases @conf_foldl_unionStep_attained
      ((stagePatterns true).filter (semMatches q)) ⟨[], [], [], 0⟩
    with hz | ⟨sp, hsp, he⟩
  · rcases List.exists_mem_of_ne_nil _ hne with ⟨sp0, hsp0⟩
    have hmem : sp0 ∈ stagePatterns true := List.mem_of_mem_filter hsp0
    have h85 := semantic_hp_conf_ge_85 sp0 (stagePatterns_subset hmem)
      (stagePatterns_true_hp hmem)
    have := @conf_foldl_unionStep_le _ ⟨[], [], [], 0⟩ _ hsp0
    omega
  · have hmem : sp ∈ stagePatterns true := List.mem_of_mem_filter hsp
    rw [he]
    exact semantic_hp_conf_ge_85 sp (stagePatterns_subset hmem)
      (stagePatterns_true_hp hmem)

end MspLemmas

/-! ## Claim theorems -/

/-- Claim C3: when several semantic patterns match one query
simultaneously within a stage, the result is the union of all matched
patterns' primary-category, secondary-category and interest tags (no
matched pattern's tags are dropped, and every returned tag comes from
some matched pattern), and its confidence equals the maximum of the
matched patterns' confidences — attained by one of them, hence never
their sum. -/
theorem claim_C3_union_and_max (q : String) (hp : Bool) (r : MatchedTags)
    (h : matchSemanticPatterns q hp = some r) :
    (∀ sp ∈ stagePatterns hp, semMatches q sp = true →
      (∀ t ∈ sp.primaryCategories, t ∈ r.primaryCategories) ∧
      (∀ t ∈ sp.secondaryCategories, t ∈ r.secondaryCategories) ∧
      (∀ t ∈ sp.interests, t ∈ r.interests) ∧
      sp.confidence ≤ r.confidence) ∧
    (∀ t ∈ r.primaryCategories, ∃ sp ∈ stagePatterns hp,
      semMatches q sp = true ∧ t ∈ sp.primaryCategories) ∧
    (∀ t ∈ r.secondaryCategories, ∃ sp ∈ stagePatterns hp,
      semMatches q sp = true ∧ t ∈ sp.secondaryCategories) ∧
    (∀ t ∈ r.interests, ∃ sp ∈ stagePatterns hp,
      semMatches q sp = true ∧ t ∈ sp.interests) ∧
    (∃ sp ∈ stagePatterns hp, semMatches q sp = true ∧
      r.confidence = sp.confidence) := by
  obtain ⟨hne, hr⟩ := msp_some_iff.mp h
  subst hr
  refine ⟨?_, ?_, ?_, ?_, ?_⟩
  · intro sp hsp hm
    have hmem : sp ∈ (stagePatterns hp).filter (semMatches q) :=
      List.mem_filter.mpr ⟨hsp, hm⟩
    exact ⟨fun t ht => mem_primary_foldl_unionStep.mpr
        (Or.inr ⟨sp, hmem, ht⟩),
      fun t ht => mem_secondary_foldl_unionStep.mpr (Or.inr ⟨sp, hmem, ht⟩),
      fun t ht => mem_interests_foldl_unionStep.mpr (Or.inr ⟨sp, hmem, ht⟩),
      conf_foldl_unionStep_le hmem⟩
  · intro t ht
    rcases mem_primary_foldl_unionStep.mp ht with h0 | ⟨sp, hsp, ht2⟩
    · exact absurd h0 (by simp)
    · rcases List.mem_filter.mp hsp with ⟨h1, h2⟩
      exact ⟨sp, h1, h2, ht2⟩
  · intro t ht
    rcases mem_secondary_foldl_unionStep.mp ht with h0 | ⟨sp, hsp, ht2⟩
    · exact absurd h0 (by simp)
    · rcases List.mem_filter.mp hsp with ⟨h1, h2⟩
      exact ⟨sp, h1, h2, ht2⟩
  · intro t ht
    rcases mem_interests_foldl_unionStep.mp ht with h0 | ⟨sp, hsp, ht2⟩
    · exact absurd h0 (by simp)
    · rcases List.mem_filter.mp hsp with ⟨h1, h2⟩
      exact ⟨sp, h1, h2, ht2⟩
  · rcases @conf_foldl_unionStep_attained
        ((stagePatterns hp).filter (semMatches q))
        ⟨[], [], [], 0⟩ with hz | ⟨sp, hsp, he⟩
    · exfalso
      rcases List.exists_mem_of_ne_nil _ hne with ⟨sp0, hsp0⟩
      have h80 : 80 ≤ sp0.confidence :=
        semantic_conf_ge_80 sp0
          (stagePatterns_subset (List.mem_of_mem_filter hsp0))
      have hle := @conf_foldl_unionStep_le _ ⟨[], [], [], 0⟩ _ hsp0
      rw [hz] at hle
      simp at hle
      omega
    · rcases List.mem_filter.mp hsp with ⟨h1, h2⟩
      exact ⟨sp, h1, h2, he⟩

/-- Witness for C3 at the two-pattern query "jazz and rock": the jazz
entry (confidence 0.9) and the rock entry (confidence 0.85) both match;
the result keeps both interests and reports the maximum 0.9. -/
theorem claim_C3_witness :
    85 ≤ (⟨["Music"], [], ["Jazz/Blues", "Rock/Metal"], 90⟩ :
        MatchedTags).confidence ∧
    "Rock/Metal" ∈ (⟨["Music"], [], ["Jazz/Blues", "Rock/Metal"], 90⟩ :
        MatchedTags).interests ∧
    "Jazz/Blues" ∈ (⟨["Music"], [], ["Jazz/Blues", "Rock/Metal"], 90⟩ :
        MatchedTags).interests := by
  have h := claim_C3_union_and_max "jazz and rock" false
    ⟨["Music"], [], ["Jazz/Blues", "Rock/Metal"], 90⟩ (by decide)
  have hrock := h.1 ⟨[.wseq [["rock"]], .wseq [["metal"]]],
    ["Music"], [], ["Rock/Metal"], 85, false⟩ (by decide) (by decide)
  have hjazz := h.1 ⟨[.wseq [["jazz"]], .wseq [["blues"]]],
    ["Music"], [], ["Jazz/Blues"], 90, false⟩ (by decide) (by decide)
  exact ⟨hrock.2.2.2, hrock.2.2.1 _ (by decide), hjazz.2.2.1 _ (by decide)⟩

/-- Claim C5 counterexample: "birthday" matches only the high-priority
birthday entry, whose confidence is 0.85, so the tags tool returns that
entry's tuple with confidence 0.85, below the 0.9 the claim requires for
every high-priority match. -/
theorem claim_C5_counterexample :
    tagsResolve "birthday" =
      ⟨["Social & Networking", "Entertainment"], ["Nightlife & Parties"], [],
       ["Social & Networking", "Entertainment", "Nightlife & Parties"],
       85⟩ ∧
    ¬(90 ≤ (tagsResolve "birthday").confidence) := by
  constructor
  · decide
  · decide

/-- Claim C5 (amended): an input matching a high-priority semantic
pattern makes the tag resolver return the union of all matched
high-priority patterns' tag tuples with confidence the maximum of their
confidences — at least 0.85, and at least 0.9 when a pattern of
confidence at least 0.9 (such as the edm entry) is among the matches;
an input matching no semantic pattern and producing no taxonomy keyword
hit yields empty tag sets with confidence 0.5 (inside [0.3, 0.5]),
reported as a success value rather than an error. -/
theorem claim_C5_amended (q : String) :
    (∀ r, matchSemanticPatterns q true = some r →
      tagsResolve q =
        ⟨r.primaryCategories, r.secondaryCategories, r.interests,
         flattenTags r.primaryCategories r.secondaryCategories r.interests,
         r.confidence⟩ ∧
      85 ≤ r.confidence ∧
      (∀ sp ∈ stagePatterns true, semMatches q sp = true →
        90 ≤ sp.confidence → 90 ≤ r.confidence)) ∧
    (matchSemanticPatterns q false = none →
      findMatchingTags (extractKeywords q) = ⟨[], [], []⟩ →
      tagsResolve q = ⟨[], [], [], [], 50⟩ ∧
      30 ≤ (tagsResolve q).confidence ∧ (tagsResolve q).confidence ≤ 50) := by
  constructor
  · intro r h
    have h85 := msp_hp_conf_ge_85 h
    refine ⟨?_, h85, ?_⟩
    · simp only [tagsResolve]
      rw [h]
      simp [h85]
    · intro sp hsp hm h90
      obtain ⟨hne, hr⟩ := msp_some_iff.mp h
      have hmem : sp ∈ (stagePatterns true).filter (semMatches q) :=
        List.mem_filter.mpr ⟨hsp, hm⟩
      have := @conf_foldl_unionStep_le _ ⟨[], [], [], 0⟩ _ hmem
      rw [← hr] at this
      omega
  · intro h1 h2
    have h0 := msp_true_none_of_false_none h1
    have hout : tagsResolve q = ⟨[], [], [], [], 50⟩ := by
      simp only [tagsResolve]
      rw [h0]
      simp only [tagsResolve.tagsResolveRest]
      rw [h1, h2]
      simp
    exact ⟨hout, by simp [hout], by simp [hout]⟩

/-- Witness for C5 at "edm party" (the edm entry alone matches, giving
its fixed tuple at confidence 0.95) and at the vocabulary-free input
"purple" (empty tags at confidence 0.5). -/
theorem claim_C5_witness :
    tagsResolve "edm party" =
      ⟨["Music"], ["Nightlife & Parties"], ["Electronic/EDM"],
       ["Music", "Nightlife & Parties", "Electronic/EDM"], 95⟩ ∧
    90 ≤ (tagsResolve "edm party").confidence ∧
    tagsResolve "purple" = ⟨[], [], [], [], 50⟩ := by
  have h1 := (claim_C5_amended "edm party").1
    ⟨["Music"], ["Nightlife & Parties"], ["Electronic/EDM"], 95⟩ (by decide)
  have h2 := (claim_C5_amended "purple").2 (by decide) (by decide)
  refine ⟨?_, ?_, h2.1⟩
  · rw [h1.1]
    decide
  · rw [h1.1]
    decide

/-- Claim C2 counterexample: the query "next weekend" is claimed to give
a range starting at the following Monday (day 20003 from day 20000, a
Friday), but the weekend entry precedes the next-week entry in
TEMPORAL_PATTERNS and \b(this\s*)?weekend\b matches "next weekend", so
the resolver returns the this-weekend keyword (Saturday 20001 to Sunday
20002) instead. -/
theorem claim_C2_counterexample :
    whenDetect "next weekend" 20000 =
      some (.kw .weekend 20001 20002) ∧
    nextWeekStart 20000 = 20003 ∧
    whenDetect "next weekend" 20000 ≠
      some (.range 20003 20009) := by
  refine ⟨by decide, by decide, by decide⟩

/-- Claim C2 (amended): a query matching the next-week pattern
\bnext\s*week(?:end)?\b and none of the earlier temporal patterns
(today/tonight/this evening, tomorrow, weekend/sat-and-sun) resolves to
a detected range starting at the following Monday — computed from the
current weekday, one to seven days ahead — and ending on the Sunday six
days after that Monday.  A query containing "next weekend" is instead
captured by the earlier weekend pattern and never reaches this branch. -/
theorem claim_C2_amended (q : String) (d : Int)
    (h1 : todayPat q = false) (h2 : tomorrowPat q = false)
    (h3 : weekendPat q = false) (h4 : nextWeekPat q = true) :
    whenDetect q d = some (.range (nextWeekStart d) (nextWeekStart d + 6)) ∧
    dayOfWeek (nextWeekStart d) = 1 ∧
    dayOfWeek (nextWeekStart d + 6) = 0 ∧
    d < nextWeekStart d ∧ nextWeekStart d ≤ d + 7 := by
  have hshift : ∀ t : Int, dayOfWeek (d + t) = (dayOfWeek d + t) % 7 := by
    intro t
    simp only [dayOfWeek]
    rw [show d + t + 4 = d + 4 + t by ring, Int.add_emod]
    conv_rhs => rw [Int.add_emod]
    rw [Int.emod_emod_of_dvd _ (dvd_refl 7)]
  have hb0 : 0 ≤ dayOfWeek d := Int.emod_nonneg _ (by norm_num)
  have hb7 : dayOfWeek d < 7 := Int.emod_lt_of_pos _ (by norm_num)
  have hnw : nextWeekStart d =
      d + (if dayOfWeek d = 0 then 1 else 8 - dayOfWeek d) := rfl
  refine ⟨by simp [whenDetect, h1, h2, h3, h4], ?_, ?_, ?_, ?_⟩
  · rw [hnw, hshift]
    generalize hg : dayOfWeek d = w
    rw [hg] at hb0 hb7
    interval_cases w <;> decide
  · rw [hnw, show d + (if dayOfWeek d = 0 then 1 else 8 - dayOfWeek d) + 6 =
      d + ((if dayOfWeek d = 0 then 1 else 8 - dayOfWeek d) + 6) by ring,
      hshift]
    generalize hg : dayOfWeek d = w
    rw [hg] at hb0 hb7
    interval_cases w <;> decide
  · rw [hnw]
    split_ifs <;> omega
  · rw [hnw]
    split_ifs <;> omega

/-- Witness for the amended C2 at "events next week" on day 20000 (a
Friday): the resolver returns the range Monday 20003 to Sunday 20009. -/
theorem claim_C2_witness :
    whenDetect "events next week" 20000 = some (.range 20003 20009) ∧
    dayOfWeek 20003 = 1 ∧ dayOfWeek 20009 = 0 := by
  have h := claim_C2_amended "events next week" 20000 (by decide) (by decide)
    (by decide) (by decide)
  have e : nextWeekStart 20000 = 20003 := by decide
  have h1 := h.1
  have h2 := h.2.1
  have h3 := h.2.2.1
  rw [e] at h1 h2 h3
  norm_num at h1 h3
  exact ⟨h1, h2, h3⟩

/-- Claim C1: for every fetched candidate set and spec, a non-empty tag
list keeps exactly the events whose tags or category case-insensitively
substring-match some spec tag (in either containment direction, as the
source filter tests); an empty tag list filters nothing; the returned
events are the survivors truncated to the requested limit and totalFound
is the survivor count before truncation. -/
theorem claim_C1_filter_truncate_total (events : List EventR)
    (tags : List String) (lim : Nat) :
    (tags ≠ [] →
      (searchLocal events tags none lim).events =
        (events.filter (eventKeep (tags.map lowerStr))).take lim ∧
      (searchLocal events tags none lim).totalFound =
        (events.filter (eventKeep (tags.map lowerStr))).length) ∧
    (tags = [] →
      (searchLocal events tags none lim).events = events.take lim ∧
      (searchLocal events tags none lim).totalFound = events.length) := by
  constructor
  · intro h
    have : tags.isEmpty = false := by
      cases tags
      · exact absurd rfl h
      · rfl
    simp [searchLocal, this]
  · rintro rfl
    simp [searchLocal]

/-- Witness for C1: four candidates of which two are music events, spec
tags ["Music"], limit 1: only the first music event is returned and
totalFound reports both survivors. -/
theorem claim_C1_witness :
    searchLocal
      [⟨"Jazz Night", "d1", "music", ["Music"]⟩,
       ⟨"Food Fest", "d2", "food", ["Food & Drink"]⟩,
       ⟨"Rock Show", "d3", "music", ["Music", "Rock/Metal"]⟩,
       ⟨"Mixer", "d4", "networking", ["Social & Networking"]⟩]
      ["Music"] none 1 =
      ⟨[⟨"Jazz Night", "d1", "music", ["Music"]⟩], 2⟩ := by
  have h := (claim_C1_filter_truncate_total
    [⟨"Jazz Night", "d1", "music", ["Music"]⟩,
     ⟨"Food Fest", "d2", "food", ["Food & Drink"]⟩,
     ⟨"Rock Show", "d3", "music", ["Music", "Rock/Metal"]⟩,
     ⟨"Mixer", "d4", "networking", ["Social & Networking"]⟩]
    ["Music"] 1).1 (by decide)
  have he := h.1
  have ht := h.2
  rw [show (searchLocal _ _ none 1) = ⟨(searchLocal _ _ none 1).events,
    (searchLocal _ _ none 1).totalFound⟩ from rfl, he, ht]
  decide

/-- Claim C10: the tag filter of Event Retrieval matches substrings in
both directions: an event is kept exactly when some spec tag and some
event tag contain one another, or some spec tag and the category contain
one another, all case-insensitively.  In particular an event whose tag
is merely a fragment of a longer spec tag also passes. -/
theorem claim_C10_bidirectional_filter (tags : List String) (e : EventR) :
    eventKeep (tags.map lowerStr) e = true ↔
      ∃ ft ∈ tags,
        (∃ et ∈ e.tags,
          strContains (lowerStr et) (lowerStr ft) = true ∨
          strContains (lowerStr ft) (lowerStr et) = true) ∨
        strContains (lowerStr e.category) (lowerStr ft) = true ∨
        strContains (lowerStr ft) (lowerStr e.category) = true := by
  simp only [eventKeep, Bool.or_eq_true, List.any_eq_true, List.mem_map]
  constructor
  · rintro (⟨ft2, ⟨ft, hft, rfl⟩, hin⟩ | ⟨ft2, ⟨ft, hft, rfl⟩, hin⟩)
    · rcases hin with ⟨et2, ⟨et, het, rfl⟩, hdir⟩
      exact ⟨ft, hft, Or.inl ⟨et, het, hdir⟩⟩
    · exact ⟨ft, hft, Or.inr hin⟩
  · rintro ⟨ft, hft, ⟨et, het, hdir⟩ | hcat⟩
    · exact Or.inl ⟨lowerStr ft, ⟨ft, hft, rfl⟩,
        ⟨lowerStr et, ⟨et, het, rfl⟩, hdir⟩⟩
    · exact Or.inr ⟨lowerStr ft, ⟨ft, hft, rfl⟩, hcat⟩

/-- Witness for C10: an event tagged "Music" passes the filter for the
longer spec tag "Music Festivals" because the event tag is a fragment of
the spec tag. -/
theorem claim_C10_witness :
    eventKeep (["Music Festivals"].map lowerStr)
      ⟨"n", "d", "other", ["Music"]⟩ = true := by
  exact (claim_C10_bidirectional_filter ["Music Festivals"]
    ⟨"n", "d", "other", ["Music"]⟩).mpr
    ⟨"Music Festivals", by decide, Or.inl ⟨"Music", by decide,
      Or.inr (by decide)⟩⟩

/-- Claim C4: when a non-empty free-text query accompanies the search
and some events survive filtering, the returned events are the survivors
reordered by relevance score (+3 name, +2 tag, +1 description per query
token of length at least 3, case-insensitively) and truncated: the
ranking is a permutation of the survivors, in descending score order,
and stable — at every score the surviving events keep their prior
relative order. -/
theorem claim_C4_relevance_ranking (events : List EventR)
    (tags : List String) (q : String) (lim : Nat)
    (hq : q.isEmpty = false)
    (hs : (if tags.isEmpty then events
      else events.filter (eventKeep (tags.map lowerStr))).isEmpty = false) :
    ((searchLocal events tags (some q) lim).events =
      (rankByRelevance
        (if tags.isEmpty then events
         else events.filter (eventKeep (tags.map lowerStr))) q).take lim) ∧
    (∀ S : List EventR,
      (rankByRelevance S q).Perm S ∧
      (rankByRelevance S q).Pairwise (fun a b =>
        relScore (splitWs (lowerChars q.toList)) b ≤
          relScore (splitWs (lowerChars q.toList)) a) ∧
      (∀ n, (rankByRelevance S q).filter
          (fun e => relScore (splitWs (lowerChars q.toList)) e == n) =
        S.filter
          (fun e => relScore (splitWs (lowerChars q.toList)) e == n))) := by
  constructor
  · rcases tags with _ | ⟨t, ts⟩
    · have hs2 : events ≠ [] := by simpa using hs
      simp [searchLocal, hq, hs2]
    · have hs2 : events.filter (eventKeep ((t :: ts).map lowerStr)) ≠ [] := by
        simpa using hs
      have hs3 : ∃ x ∈ events,
          eventKeep ((t :: ts).map lowerStr) x = true := by
        rcases List.exists_mem_of_ne_nil _ hs2 with ⟨x, hx⟩
        rcases List.mem_filter.mp hx with ⟨hx1, hx2⟩
        exact ⟨x, hx1, hx2⟩
      simp only [List.map_cons] at hs3
      simp [searchLocal, hq, hs3]
  · intro S
    exact ⟨sortScoreDesc_perm _ S, sortScoreDesc_pairwise _ S,
      fun n => sortScoreDesc_filter_eq _ S n⟩

/-- Witness for C4 at the query "jazz": survivors score 0, 1, 1, 3; the
output is in descending order with the two score-1 events keeping their
original relative order. -/
theorem claim_C4_witness :
    (searchLocal
      [⟨"Alpha", "x", "c", []⟩,
       ⟨"Beta", "some jazz here", "c", []⟩,
       ⟨"Gamma", "also jazz", "c", []⟩,
       ⟨"Jazz Delta", "y", "c", []⟩]
      [] (some "jazz") 10).events =
      [⟨"Jazz Delta", "y", "c", []⟩,
       ⟨"Beta", "some jazz here", "c", []⟩,
       ⟨"Gamma", "also jazz", "c", []⟩,
       ⟨"Alpha", "x", "c", []⟩] := by
  have h := (claim_C4_relevance_ranking
    [⟨"Alpha", "x", "c", []⟩,
     ⟨"Beta", "some jazz here", "c", []⟩,
     ⟨"Gamma", "also jazz", "c", []⟩,
     ⟨"Jazz Delta", "y", "c", []⟩]
    [] "jazz" 10 (by decide) (by decide)).1
  rw [h]
  decide

/-- Claim C6: a query containing an explicit distance phrase
within-N-km (or N-km-radius/around/near) makes the Radius Resolver
return radius_km = N, whatever the neighborhood or city signals are
(any detected location and any isNeighborhood flag). -/
theorem claim_C6_explicit_radius_wins (q : String) (loc : Option String)
    (inb : Option Bool) (n : Nat) (h : explicitRadius q = some n) :
    (radiusResolve q loc inb).radiusKm = n := by
  simp [radiusResolve, h]

/-- Witness for C6: "within 7 km" with a neighborhood location and the
isNeighborhood flag set still yields 7 km. -/
theorem claim_C6_witness :
    (radiusResolve "within 7 km" (some "koramangala") (some true)).radiusKm
      = 7 :=
  claim_C6_explicit_radius_wins "within 7 km" (some "koramangala")
    (some true) 7 (by decide)

/-- Claim C7 counterexample: with no numeric or qualitative phrase the
supplied default is returned unclamped, so the default 50 produces a
result outside [1, 20]. -/
theorem claim_C7_counterexample :
    limitResolve "zzz" 50 = 50 ∧ ¬(limitResolve "zzz" 50 ≤ 20) := by
  refine ⟨by decide, by decide⟩

/-- Claim C7 (amended): an explicit numeric phrase N yields N clamped to
[1, 20]; otherwise a qualitative phrase yields 1, 3 or 10; otherwise the
supplied default (3 when unspecified) is returned as is, without
clamping — so the result lies in [1, 20] whenever the supplied default
does, but not for defaults outside that interval. -/
theorem claim_C7_amended (q : String) (d : Int) :
    (∀ n, explicitLimit q = some n →
      limitResolve q d = min (max (n : Int) 1) 20 ∧
      1 ≤ limitResolve q d ∧ limitResolve q d ≤ 20) ∧
    (explicitLimit q = none →
      (∀ p l, qualitativeLimits.find? (fun pl => patTest pl.1 q)
          = some (p, l) →
        limitResolve q d = l ∧ (l = 1 ∨ l = 3 ∨ l = 10)) ∧
      (qualitativeLimits.find? (fun pl => patTest pl.1 q) = none →
        limitResolve q d = d)) ∧
    (1 ≤ d → d ≤ 20 → 1 ≤ limitResolve q d ∧ limitResolve q d ≤ 20) := by
  have hqual : ∀ x ∈ qualitativeLimits, x.2 = 1 ∨ x.2 = 3 ∨ x.2 = 10 := by
    decide
  refine ⟨?_, ?_, ?_⟩
  · intro n h
    have he : limitResolve q d = min (max (n : Int) 1) 20 := by
      simp [limitResolve, h]
    refine ⟨he, ?_, ?_⟩ <;> rw [he] <;> omega
  · intro h
    constructor
    · intro p l hf
      have hmem := List.mem_of_find?_eq_some hf
      have he : limitResolve q d = l := by
        simp [limitResolve, h, hf]
      exact ⟨he, hqual _ hmem⟩
    · intro hf
      simp [limitResolve, h, hf]
  · intro hd1 hd2
    cases he : explicitLimit q with
    | some n =>
      have heq : limitResolve q d = min (max (n : Int) 1) 20 := by
        simp [limitResolve, he]
      rw [heq]
      constructor <;> omega
    | none =>
      cases hf : qualitativeLimits.find? (fun pl => patTest pl.1 q) with
      | some pl =>
        obtain ⟨p, l⟩ := pl
        have hmem := List.mem_of_find?_eq_some hf
        have heq : limitResolve q d = (l : Int) := by
          simp [limitResolve, he, hf]
        rw [heq]
        rcases hqual _ hmem with h | h | h <;>
          simp only at h <;> subst h <;> constructor <;> norm_num
      | none =>
        have heq : limitResolve q d = d := by
          simp [limitResolve, he, hf]
        rw [heq]
        exact ⟨hd1, hd2⟩

/-- Witness for the amended C7: "top 5 concerts" yields 5 (explicit,
clamp inert) and a phrase-free query returns the supplied default 3. -/
theorem claim_C7_witness :
    limitResolve "top 5 concerts" 3 = 5 ∧ limitResolve "qqq" 3 = 3 := by
  have h1 := ((claim_C7_amended "top 5 concerts" 3).1 5 (by decide)).1
  have h2 := ((claim_C7_amended "qqq" 3).2.1 (by decide)).2 (by decide)
  exact ⟨by rw [h1]; decide, h2⟩

/-- Claim C8: a query whose detected candidate is a key of the static
city/neighborhood table resolves to that table's stored coordinates at
confidence 0.95 (at least 0.9), whatever the geocoder would do; and a
query where no surface pattern matches, no known location name occurs
and no default city is supplied yields an undetected result — success
false, the fixed error message and confidence 0.  The resolver is a
total function, so no input makes it throw. -/
theorem claim_C8_lookup_and_failure (q : String) (dflt : Option String)
    (geo : String → Option GeoHit) :
    (∀ cand co, detectLocation q dflt = some cand →
      getQuickCoordinates cand = some co →
      coordinatesResolve q dflt geo =
        ⟨true, some co, some cand,
         coordNeighborhoods.any (fun n => strContains (lowerStr q) n), 95,
         none⟩ ∧ (90 : Nat) ≤ 95) ∧
    (locationPatternCapture q = none →
      knownCityScan (lowerStr q) = none → dflt = none →
      coordinatesResolve q dflt geo =
        ⟨false, none, none, false, 0,
         some "Could not detect any location in the query"⟩) := by
  constructor
  · intro cand co h1 h2
    refine ⟨?_, by norm_num⟩
    simp [coordinatesResolve, h1, h2]
  · intro hp hc hd
    have hdet : detectLocation q dflt = none := by
      simp [detectLocation, hp, hc, hd]
    simp [coordinatesResolve, hdet]

/-- Witness for C8: "events in koramangala" hits the static table (with
the neighborhood flag set), and "hello" with no default city fails with
the fixed error message, in both cases with a geocoder that never
answers. -/
theorem claim_C8_witness :
    coordinatesResolve "events in koramangala" none (fun _ => none) =
      ⟨true, some (129352, 776245), some "koramangala", true, 95, none⟩ ∧
    coordinatesResolve "hello" none (fun _ => none) =
      ⟨false, none, none, false, 0,
       some "Could not detect any location in the query"⟩ := by
  have h1 := ((claim_C8_lookup_and_failure "events in koramangala" none
    (fun _ => none)).1 "koramangala" (129352, 776245)
    (by decide) (by decide)).1
  have h2 := (claim_C8_lookup_and_failure "hello" none
    (fun _ => none)).2 (by decide) (by decide) rfl
  exact ⟨by rw [h1]; decide, h2⟩

/-- Claim C9: whatever the language model returns to the model-based tag
fallback, every name surviving validation is present in the taxonomy at
its level — each name outside the taxonomy is discarded individually by
the filters, with no error channel — the fallback returns none exactly
when no returned name is valid (so the cascade falls through), and every
surviving result carries the fixed confidence 0.75. -/
theorem claim_C9_ai_validation (resp : AIResponse) :
    (aiValidate resp = none ↔
      resp.primaryCategories.filter isValidPrimary = [] ∧
      resp.secondaryCategories.filter isValidSecondary = [] ∧
      resp.interests.filter isValidInterest = []) ∧
    (∀ r, aiValidate resp = some r →
      r.primaryCategories = resp.primaryCategories.filter isValidPrimary ∧
      r.secondaryCategories =
        resp.secondaryCategories.filter isValidSecondary ∧
      r.interests = resp.interests.filter isValidInterest ∧
      r.confidence = 75 ∧
      (∀ x ∈ r.primaryCategories, isValidPrimary x = true) ∧
      (∀ x ∈ r.secondaryCategories, isValidSecondary x = true) ∧
      (∀ x ∈ r.interests, isValidInterest x = true)) := by
  constructor
  · constructor
    · intro h
      simp only [aiValidate] at h
      split at h
      · rename_i hcond
        simp only [Bool.and_eq_true, List.isEmpty_eq_true] at hcond
        exact ⟨hcond.1.1, hcond.1.2, hcond.2⟩
      · cases h
    · rintro ⟨h1, h2, h3⟩
      simp [aiValidate, h1, h2, h3]
  · intro r h
    simp only [aiValidate] at h
    split at h
    · cases h
    · cases h
      refine ⟨rfl, rfl, rfl, rfl, ?_, ?_, ?_⟩
      · exact fun x hx => (List.mem_filter.mp hx).2
      · exact fun x hx => (List.mem_filter.mp hx).2
      · exact fun x hx => (List.mem_filter.mp hx).2

/-- Witness for C9: a response holding the invalid names "Bogus" and
"Nope" beside valid ones keeps exactly the valid names at confidence
0.75, and an all-invalid response yields none. -/
theorem claim_C9_witness :
    aiValidate ⟨["Music", "Bogus"], ["Comedy"], ["Jazz/Blues", "Nope"]⟩ =
      some ⟨["Music"], ["Comedy"], ["Jazz/Blues"], 75⟩ ∧
    aiValidate ⟨["Bogus"], [], ["Nope"]⟩ = none := by
  constructor
  · cases hav : aiValidate ⟨["Music", "Bogus"], ["Comedy"],
      ["Jazz/Blues", "Nope"]⟩ with
    | none =>
      have h := ((claim_C9_ai_validation
        ⟨["Music", "Bogus"], ["Comedy"], ["Jazz/Blues", "Nope"]⟩).1.mp hav).1
      exact absurd h (by decide)
    | some r =>
      have h := (claim_C9_ai_validation
        ⟨["Music", "Bogus"], ["Comedy"], ["Jazz/Blues", "Nope"]⟩).2 r hav
      have : r = ⟨["Music"], ["Comedy"], ["Jazz/Blues"], 75⟩ := by
        rcases h with ⟨e1, e2, e3, e4, _⟩
        cases r
        simp only at e1 e2 e3 e4
        subst e1
        subst e2
        subst e3
        subst e4
        decide
      rw [this]
  · exact (claim_C9_ai_validation ⟨["Bogus"], [], ["Nope"]⟩).1.mpr
      (by refine ⟨?_, ?_, ?_⟩ <;> decide)

end SnSniper
